import Mathlib

/-!
Verification development for the alva-arjs pose-tracking pipeline.

The file embeds, in Lean, the tracking components of the repository:

* the smoothing revision of `TrackerManager` (exponential smoothing of
  position and quaternion, quaternion renormalization, first-pose reset);
* the three-source merging revision of `TrackerManager`
  (`three/tracking/TrackerManager.js`);
* the two revisions of `AlvaTracker` (the loss-recovery holder and the
  adaptive-resolution scheduler);
* the `GPSTracker` update throttling and error handling.

Real numbers stand for JavaScript floating-point values where square
roots occur; rationals and integers model values on which the code only
performs ring operations and comparisons.  Timer-based behaviour
(`setTimeout` / `clearTimeout`) is modelled by explicit state flags for
"a timer handle has been stored" and "a timer callback is pending",
with timer firing as an explicit event.
-/

noncomputable section

namespace SmoothTM

/-- Three-component vector used for positions and Euler angles. -/
structure Vec3 where
  x : ℝ
  y : ℝ
  z : ℝ

/-- Four-component quaternion record. -/
structure Quat where
  x : ℝ
  y : ℝ
  z : ℝ
  w : ℝ

/-- Pose record handed to `smoothPose`: position, quaternion, and the
Euler-angle `orientation` field that is passed through unchanged. -/
structure Pose where
  position : Vec3
  quaternion : Quat
  orientation : Vec3

/-- Identity tag of the source whose callback produced a pose. -/
inductive Source where
  | alva
  | gps
  deriving DecidableEq

/-- Pose emitted to the consumer: the smoothed pose plus the source tag. -/
structure TaggedPose where
  position : Vec3
  quaternion : Quat
  orientation : Vec3
  source : Source

/-- Smoothing coefficient `this.smoothingFactor = 0.3`. -/
def smoothingFactor : ℝ := 3 / 10

/-- Exponential moving average of one component:
`previous + smoothingFactor * (current - previous)`. -/
def smoothValue (current previous : ℝ) : ℝ :=
  previous + smoothingFactor * (current - previous)

/-- Component-wise smoothing of a 3-vector. -/
def smoothVector (current previous : Vec3) : Vec3 :=
  ⟨smoothValue current.x previous.x,
   smoothValue current.y previous.y,
   smoothValue current.z previous.z⟩

/-- Four-component dot product computed at the top of `smoothQuaternion`. -/
def quatDot (a b : Quat) : ℝ :=
  a.x * b.x + a.y * b.y + a.z * b.z + a.w * b.w

/-- Quaternion smoothing: flip the sign of `current` when its dot product
with `previous` is negative, then blend component-wise. -/
noncomputable def smoothQuaternion (current previous : Quat) : Quat :=
  let c : Quat :=
    if quatDot current previous < 0 then
      ⟨-current.x, -current.y, -current.z, -current.w⟩
    else current
  ⟨smoothValue c.x previous.x,
   smoothValue c.y previous.y,
   smoothValue c.z previous.z,
   smoothValue c.w previous.w⟩

/-- Squared Euclidean norm of a quaternion. -/
def quatNormSq (q : Quat) : ℝ :=
  q.x * q.x + q.y * q.y + q.z * q.z + q.w * q.w

/-- Euclidean norm of a quaternion, the `length` computed in
`normalizeQuaternion`. -/
noncomputable def quatNorm (q : Quat) : ℝ :=
  Real.sqrt (quatNormSq q)

/-- Quaternion normalization: divide all four components by the
combined magnitude. -/
noncomputable def normalizeQuaternion (q : Quat) : Quat :=
  ⟨q.x / quatNorm q, q.y / quatNorm q, q.z / quatNorm q, q.w / quatNorm q⟩

/-- Mutable state of the smoothing `TrackerManager`. -/
structure State where
  smoothedPosition : Vec3
  smoothedQuaternion : Quat
  isFirstPose : Bool
  currentPose : Option TaggedPose

/-- Startup state of the smoothing `TrackerManager`. -/
def initState : State :=
  { smoothedPosition := ⟨0, 0, 0⟩
    smoothedQuaternion := ⟨0, 0, 0, 1⟩
    isFirstPose := true
    currentPose := none }

/-- Body of `smoothPose`: on the first pose the smoothed values are copied
from the incoming pose; afterwards position and quaternion are blended and
the quaternion renormalized.  Returns the updated manager state and the
returned pose. -/
noncomputable def smoothPose (s : State) (pose : Option Pose) :
    State × Option Pose :=
  match pose with
  | none => (s, none)
  | some p =>
      if s.isFirstPose then
        let s' : State :=
          { s with smoothedPosition := p.position
                   smoothedQuaternion := p.quaternion
                   isFirstPose := false }
        (s', some { position := s'.smoothedPosition
                    quaternion := s'.smoothedQuaternion
                    orientation := p.orientation })
      else
        let sp := smoothVector p.position s.smoothedPosition
        let sq := normalizeQuaternion
          (smoothQuaternion p.quaternion s.smoothedQuaternion)
        let s' : State :=
          { s with smoothedPosition := sp, smoothedQuaternion := sq }
        (s', some { position := sp, quaternion := sq,
                    orientation := p.orientation })

/-- Shared body of `handleAlvaPose` and `handleGPSPose`: a null report
resets the first-pose flag and forwards null to the consumer; a valid
report is smoothed, tagged with the source identity, stored, and emitted.
The second component is the argument passed to `onPoseUpdate`. -/
noncomputable def handlePose (src : Source) (s : State) (pose : Option Pose) :
    State × Option TaggedPose :=
  match pose with
  | none => ({ s with isFirstPose := true }, none)
  | some p =>
      let res := smoothPose s (some p)
      match res.2 with
      | none => (res.1, none)
      | some q =>
          let tagged : TaggedPose :=
            { position := q.position, quaternion := q.quaternion,
              orientation := q.orientation, source := src }
          ({ res.1 with currentPose := some tagged }, some tagged)

/-- Callback handler for the visual source. -/
noncomputable def handleAlvaPose : State → Option Pose → State × Option TaggedPose :=
  handlePose Source.alva

/-- Callback handler for the geolocation source. -/
noncomputable def handleGPSPose : State → Option Pose → State × Option TaggedPose :=
  handlePose Source.gps

/-- Run of the manager over a sequence of source reports, collecting the
argument of every `onPoseUpdate` call. -/
noncomputable def run (s : State) :
    List (Source × Option Pose) → State × List (Option TaggedPose)
  | [] => (s, [])
  | e :: es =>
      ((run (handlePose e.1 s e.2).1 es).1,
       (handlePose e.1 s e.2).2 :: (run (handlePose e.1 s e.2).1 es).2)

/-- Quaternion step written out from the words of the specification:
flip the incoming quaternion's sign when its dot product with the
smoothed quaternion is negative, blend component-wise with the smoothing
factor, and divide all four components by their combined magnitude. -/
noncomputable def specQuatStep (incoming smoothed : Quat) : Quat :=
  let c : Quat :=
    if incoming.x * smoothed.x + incoming.y * smoothed.y +
        incoming.z * smoothed.z + incoming.w * smoothed.w < 0 then
      ⟨-incoming.x, -incoming.y, -incoming.z, -incoming.w⟩
    else incoming
  let b : Quat :=
    ⟨smoothed.x + smoothingFactor * (c.x - smoothed.x),
     smoothed.y + smoothingFactor * (c.y - smoothed.y),
     smoothed.z + smoothingFactor * (c.z - smoothed.z),
     smoothed.w + smoothingFactor * (c.w - smoothed.w)⟩
  let m := Real.sqrt (b.x * b.x + b.y * b.y + b.z * b.z + b.w * b.w)
  ⟨b.x / m, b.y / m, b.z / m, b.w / m⟩

/-- Invariant carried along a run: the smoothed quaternion is unit. -/
def QuatInv (s : State) : Prop := quatNormSq s.smoothedQuaternion = 1

end SmoothTM

namespace AlvaHold

/-- Raw pose returned by the estimator: a 4x4 homogeneous transform
stored as 16 entries. -/
def RawPose := Fin 16 → ℚ

/-- Coordinate conversion `convertPoseToThreeJS`: negate entries 0 and 2
of the rotation part and entries 13 and 14 of the translation part. -/
def convertPoseToThreeJS (pose : RawPose) : RawPose :=
  fun i => if i = 0 ∨ i = 2 ∨ i = 13 ∨ i = 14 then -pose i else pose i

/-- Loss cap `this.maxConsecutiveLostFrames = 5`. -/
def maxConsecutiveLostFrames : ℕ := 5

/-- Holder state of the loss-recovery revision of `AlvaTracker`.
`timerStored` models the `poseTimeout` field being truthy (a handle was
stored and never nulled); `timerPending` models a scheduled timeout
callback that has neither run nor been cancelled. -/
structure State where
  lastPose : Option RawPose
  consecutiveLostFrames : ℕ
  timerStored : Bool
  timerPending : Bool

/-- Events of the holder: one `processFrame` call with the estimator's
result, or the pose timeout firing. -/
inductive Event where
  | frame (result : Option RawPose)
  | timeout

/-- Body of `processFrame` after `findCameraPose`.  The second component
is `some x` when `onPoseUpdate x` is called. -/
def processFrame (s : State) (result : Option RawPose) :
    State × Option (Option RawPose) :=
  match result with
  | some pose =>
      let converted := convertPoseToThreeJS pose
      ({ lastPose := some converted
         consecutiveLostFrames := 0
         timerStored := s.timerStored
         timerPending := if s.timerStored then false else s.timerPending },
       some (some converted))
  | none =>
      let lost := s.consecutiveLostFrames + 1
      match s.lastPose with
      | some held =>
          if lost < maxConsecutiveLostFrames then
            ({ s with consecutiveLostFrames := lost
                      timerStored := true
                      timerPending :=
                        if s.timerStored then s.timerPending else true },
             some (some held))
          else
            ({ s with consecutiveLostFrames := lost }, some none)
      | none =>
          ({ s with consecutiveLostFrames := lost }, some none)

/-- Timeout callback: clears the held pose and emits null.  The stored
handle is not nulled by the callback. -/
def timeoutFires (s : State) : State × Option (Option RawPose) :=
  if s.timerPending then
    ({ s with lastPose := none, timerPending := false }, some none)
  else (s, none)

/-- One event of the holder. -/
def step (s : State) : Event → State × Option (Option RawPose)
  | Event.frame r => processFrame s r
  | Event.timeout => timeoutFires s

/-- Run of the holder over an event list, collecting one emission slot
per event. -/
def run (s : State) : List Event → State × List (Option (Option RawPose))
  | [] => (s, [])
  | e :: es =>
      ((run (step s e).1 es).1, (step s e).2 :: (run (step s e).1 es).2)

/-- All-zero raw pose used as a concrete held pose. -/
def zeroPose : RawPose := fun _ => 0

/-- Raw pose whose translation entry differs from the zero pose by 10^6,
far beyond any plausible stability threshold. -/
def farPose : RawPose := fun i => if i = 12 then 1000000 else 0

end AlvaHold

namespace AlvaScale

/-- Device capability inputs read by `determineOptimalScale`. -/
structure Device where
  isMobile : Bool
  deviceMemory : ℚ
  devicePixelRatio : ℚ

/-- Scale selection of `determineOptimalScale`: mobile devices start from
`memory / 4` clamped to [0.5, 1], high-DPI displays multiply by 0.75, and
the result is clamped to [0.5, 1]. -/
def determineOptimalScale (d : Device) : ℚ :=
  let scale1 : ℚ :=
    if d.isMobile then min 1 (max (1 / 2) (d.deviceMemory / 4)) else 1
  let scale2 : ℚ :=
    if 1 < d.devicePixelRatio then scale1 * (3 / 4) else scale1
  max (1 / 2) (min 1 scale2)

/-- State of the adaptive-resolution revision of `AlvaTracker`.
`alvaWidth`/`alvaHeight` are the dimensions passed to the estimator's
one-time `Initialize` call. -/
structure State where
  scaleFactor : ℚ
  frameCount : ℕ
  currentFPS : ℕ
  lastFPSUpdate : ℚ
  processedWidth : ℤ
  processedHeight : ℤ
  alvaWidth : ℤ
  alvaHeight : ℤ
  baseWidth : ℤ
  baseHeight : ℤ

/-- State after the constructor and `initialize()`: the scale factor is
chosen from the device and the estimator is initialized once at the base
dimensions 640x480. -/
def initTracker (d : Device) : State :=
  { scaleFactor := determineOptimalScale d
    frameCount := 0
    currentFPS := 60
    lastFPSUpdate := 0
    processedWidth := 0
    processedHeight := 0
    alvaWidth := 640
    alvaHeight := 480
    baseWidth := 640
    baseHeight := 480 }

/-- Body of `updateProcessingDimensions`: recompute the processed frame
dimensions from the display size and scale factor.  The estimator is not
touched. -/
def updateProcessingDimensions (displayW displayH : ℤ) (s : State) : State :=
  let effectiveWidth := if displayW = 0 then s.baseWidth else displayW
  let effectiveHeight := if displayH = 0 then s.baseHeight else displayH
  { s with
    processedWidth :=
      max 1 (Int.floor ((effectiveWidth : ℚ) * s.scaleFactor))
    processedHeight :=
      max 1 (Int.floor ((effectiveHeight : ℚ) * s.scaleFactor)) }

/-- Body of `updateFPS`: count the frame; once a 1-second window has
elapsed, publish the measured FPS and adjust the scale factor, with a
decrement step below 30 FPS and an increment step above 45 FPS while the
scale is below 1. -/
def updateFPS (currentTime : ℚ) (displayW displayH : ℤ) (s : State) : State :=
  let s1 : State := { s with frameCount := s.frameCount + 1 }
  if 1000 ≤ currentTime - s1.lastFPSUpdate then
    let s2 : State :=
      { s1 with currentFPS := s1.frameCount, frameCount := 0,
                lastFPSUpdate := currentTime }
    if s2.currentFPS < 30 then
      updateProcessingDimensions displayW displayH
        { s2 with scaleFactor := max (1 / 2) (s2.scaleFactor - 1 / 10) }
    else if 45 < s2.currentFPS ∧ s2.scaleFactor < 1 then
      updateProcessingDimensions displayW displayH
        { s2 with scaleFactor := min 1 (s2.scaleFactor + 1 / 10) }
    else s2
  else s1

/-- Sequence of `updateFPS` calls, one per processed frame, each with the
call time and the display dimensions read at that moment. -/
def runFPS (s : State) : List (ℚ × ℤ × ℤ) → State
  | [] => s
  | e :: es => runFPS (updateFPS e.1 e.2.1 e.2.2 s) es

/-- Dimensions of the image buffer handed to `findCameraPose` on the next
processed frame. -/
def frameDims (s : State) : ℤ × ℤ := (s.processedWidth, s.processedHeight)

/-- Dimensions at which the estimator was initialized. -/
def estimatorDims (s : State) : ℤ × ℤ := (s.alvaWidth, s.alvaHeight)
/-- Scenario state: desktop device at scale 1, `start()` with a 640x480
display, 14 frames counted inside the first window, then the
window-closing `updateFPS` call at t = 1000 measuring 15 FPS. -/
def c6Scenario : State :=
  runFPS (updateProcessingDimensions 640 480 (initTracker ⟨false, 4, 1⟩))
    (List.replicate 14 ((0 : ℚ), (640 : ℤ), (480 : ℤ)) ++
      [((1000 : ℚ), (640 : ℤ), (480 : ℤ))])


end AlvaScale

namespace GPS

/-- Geodetic coordinates delivered by the geolocation feed; altitude and
heading may be absent. -/
structure Coords where
  longitude : ℚ
  latitude : ℚ
  altitude : Option ℚ
  heading : Option ℚ

/-- Feed sample: coordinates plus the sample's own timestamp. -/
structure Position where
  coords : Coords
  timestamp : ℚ

/-- Three-component record used for position and orientation. -/
structure Vec3 where
  x : ℚ
  y : ℚ
  z : ℚ

/-- Pose emitted by the GPS tracker. -/
structure Pose where
  position : Vec3
  orientation : Vec3
  timestamp : ℚ

/-- Throttle interval `this.updateInterval = 1000`. -/
def updateInterval : ℤ := 1000

/-- Tracker state: the time of the last accepted update (0 at
construction) and the last accepted sample. -/
structure State where
  lastUpdateTime : ℤ
  lastPosition : Option Position

/-- Startup state of the GPS tracker. -/
def initState : State := { lastUpdateTime := 0, lastPosition := none }

/-- Conversion of a feed sample to pose data, with 0 defaults for absent
altitude and heading. -/
def toPose (p : Position) : Pose :=
  { position := { x := p.coords.longitude, y := p.coords.latitude,
                  z := p.coords.altitude.getD 0 }
    orientation := { x := 0, y := 0, z := p.coords.heading.getD 0 }
    timestamp := p.timestamp }

/-- Body of `handlePositionUpdate`: an update arriving less than
`updateInterval` after the last accepted one is skipped; otherwise the
state is updated and a pose emitted.  The second component is `some x`
when `onPoseUpdate x` is called. -/
def handlePositionUpdate (s : State) (currentTime : ℤ) (position : Position) :
    State × Option (Option Pose) :=
  if currentTime - s.lastUpdateTime < updateInterval then
    (s, none)
  else
    ({ lastUpdateTime := currentTime, lastPosition := some position },
     some (some (toPose position)))

/-- Body of `handleError`: every feed error emits null. -/
def handleError (s : State) : State × Option (Option Pose) :=
  (s, some none)

/-- Feed events: a position update stamped with its arrival clock time,
or a feed error. -/
inductive Event where
  | update (currentTime : ℤ) (position : Position)
  | error

/-- One feed callback. -/
def step (s : State) : Event → State × Option (Option Pose)
  | Event.update t p => handlePositionUpdate s t p
  | Event.error => handleError s

/-- Run of the tracker over a feed event list. -/
def run (s : State) : List Event → State × List (Option (Option Pose))
  | [] => (s, [])
  | e :: es =>
      ((run (step s e).1 es).1, (step s e).2 :: (run (step s e).1 es).2)

/-- Arrival times of the updates that were accepted (emitted a pose)
along a run. -/
def acceptedTimes (s : State) : List Event → List ℤ
  | [] => []
  | e :: es =>
      match e with
      | Event.update t _ =>
          if ((step s e).2).isSome then t :: acceptedTimes (step s e).1 es
          else acceptedTimes (step s e).1 es
      | Event.error => acceptedTimes (step s e).1 es

end GPS

namespace MergeTM

/-- Source tags of the three-source `TrackerManager`. -/
inductive Source where
  | alva
  | gps
  | image
  deriving DecidableEq

/-- Fields of a source report.  Each field may be absent: a JavaScript
object spread only overrides properties the incoming object carries. -/
structure Fields where
  position : Option (ℚ × ℚ × ℚ)
  orientation : Option (ℚ × ℚ × ℚ)
  timestamp : Option ℚ

/-- Merged current pose: accumulated fields plus the tag of the source
that last reported. -/
structure MergedPose where
  fields : Fields
  source : Source

/-- Property override of the object spread: the new value wins when
present, otherwise the old value survives. -/
def jsOverride (old new : Option α) : Option α :=
  match new with
  | some v => some v
  | none => old

/-- Field set of the absent current pose (`{...null}` contributes
nothing). -/
def emptyFields : Fields :=
  { position := none, orientation := none, timestamp := none }

/-- Fields contributed by the current pose to the spread. -/
def fieldsOf : Option MergedPose → Fields
  | none => emptyFields
  | some m => m.fields

/-- Field-wise spread `{...currentPose, ...pose}`. -/
def mergeFields (old new : Fields) : Fields :=
  { position := jsOverride old.position new.position
    orientation := jsOverride old.orientation new.orientation
    timestamp := jsOverride old.timestamp new.timestamp }

/-- Manager state: only the merged current pose matters here. -/
structure State where
  currentPose : Option MergedPose

/-- Startup state: no current pose. -/
def initState : State := { currentPose := none }

/-- Shared body of `handleAlvaPose`, `handleGPSPose` and
`handleImagePose`: a null report returns early without invoking the
callback or touching the current pose; a valid report is merged into the
current pose, tagged, stored, and emitted.  The second component is
`some m` when `onPoseUpdate m` is called, `none` when the callback is not
invoked at all. -/
def handlePose (src : Source) (s : State) (pose : Option Fields) :
    State × Option MergedPose :=
  match pose with
  | none => (s, none)
  | some p =>
      let merged : MergedPose :=
        { fields := mergeFields (fieldsOf s.currentPose) p, source := src }
      ({ currentPose := some merged }, some merged)

/-- Body of `getCurrentPose`. -/
def getCurrentPose (s : State) : Option MergedPose := s.currentPose

/-- Run over a sequence of source reports. -/
def run (s : State) : List (Source × Option Fields) → State × List (Option MergedPose)
  | [] => (s, [])
  | e :: es =>
      ((run (handlePose e.1 s e.2).1 es).1,
       (handlePose e.1 s e.2).2 :: (run (handlePose e.1 s e.2).1 es).2)


end MergeTM

namespace SmoothTM

theorem quatNormSq_nonneg (q : Quat) : 0 ≤ quatNormSq q := by
  have hx := mul_self_nonneg q.x
  have hy := mul_self_nonneg q.y
  have hz := mul_self_nonneg q.z
  have hw := mul_self_nonneg q.w
  unfold quatNormSq
  linarith

theorem quatNormSq_normalize (q : Quat) (h : quatNormSq q ≠ 0) :
    quatNormSq (normalizeQuaternion q) = 1 := by
  have hnn := quatNormSq_nonneg q
  have hl : quatNorm q * quatNorm q = quatNormSq q :=
    Real.mul_self_sqrt hnn
  have key : quatNormSq (normalizeQuaternion q) =
      quatNormSq q / (quatNorm q * quatNorm q) := by
    simp only [quatNormSq, normalizeQuaternion]
    ring
  rw [key, hl, div_self h]

theorem quatNorm_eq_one (q : Quat) (h : quatNormSq q = 1) : quatNorm q = 1 := by
  rw [quatNorm, h, Real.sqrt_one]

/-- A blend of a unit previous quaternion with any incoming quaternion has
squared norm at least 49/100: the sign flip makes the cross term
nonnegative. -/
theorem quatNormSq_smoothQuaternion_pos (c p : Quat)
    (hp : quatNormSq p = 1) :
    0 < quatNormSq (smoothQuaternion c p) := by
  unfold smoothQuaternion
  by_cases hd : quatDot c p < 0
  · simp only [if_pos hd]
    simp only [quatNormSq, quatDot, smoothValue, smoothingFactor] at *
    nlinarith [mul_self_nonneg c.x, mul_self_nonneg c.y,
      mul_self_nonneg c.z, mul_self_nonneg c.w]
  · simp only [if_neg hd]
    push_neg at hd
    simp only [quatNormSq, quatDot, smoothValue, smoothingFactor] at *
    nlinarith [mul_self_nonneg c.x, mul_self_nonneg c.y,
      mul_self_nonneg c.z, mul_self_nonneg c.w]
theorem quatInv_initState : QuatInv initState := by
  simp [QuatInv, initState, quatNormSq]

/-- One handler step preserves the unit-quaternion invariant and every
emitted valid pose carries a unit quaternion, provided the incoming pose
does. -/
theorem handlePose_quatInv (src : Source) (s : State) (pose : Option Pose)
    (hs : QuatInv s)
    (hin : ∀ p, pose = some p → quatNormSq p.quaternion = 1) :
    QuatInv (handlePose src s pose).1 ∧
      (∀ t, (handlePose src s pose).2 = some t →
        quatNormSq t.quaternion = 1) := by
  match pose with
  | none =>
      refine ⟨?_, ?_⟩
      · simpa [handlePose, QuatInv] using hs
      · intro t ht
        simp [handlePose] at ht
  | some p =>
      have hpq : quatNormSq p.quaternion = 1 := hin p rfl
      by_cases hf : s.isFirstPose
      · constructor
        · simp [handlePose, smoothPose, hf, QuatInv, hpq]
        · intro t ht
          simp [handlePose, smoothPose, hf] at ht
          rw [← ht]
          exact hpq
      · have hblend : quatNormSq
            (smoothQuaternion p.quaternion s.smoothedQuaternion) ≠ 0 := by
          have := quatNormSq_smoothQuaternion_pos p.quaternion
            s.smoothedQuaternion hs
          exact ne_of_gt this
        have hres := quatNormSq_normalize _ hblend
        constructor
        · simp [handlePose, smoothPose, hf, QuatInv, hres]
        · intro t ht
          simp [handlePose, smoothPose, hf] at ht
          rw [← ht]
          exact hres

/-- Along any run on unit-quaternion inputs, the invariant holds at the end
and every emitted valid pose carries a unit quaternion. -/
theorem run_quatInv (events : List (Source × Option Pose)) (s : State)
    (hs : QuatInv s)
    (hin : ∀ e ∈ events, ∀ p, e.2 = some p → quatNormSq p.quaternion = 1) :
    QuatInv (run s events).1 ∧
      (∀ t ∈ (run s events).2, ∀ q, t = some q →
        quatNormSq q.quaternion = 1) := by
  induction events generalizing s with
  | nil =>
      exact ⟨hs, by intro t ht; simp [run] at ht⟩
  | cons e es ih =>
      have hstep := handlePose_quatInv e.1 s e.2 hs
        (hin e (List.mem_cons_self e es))
      have hrest := ih (handlePose e.1 s e.2).1 hstep.1
        (fun x hx => hin x (List.mem_cons_of_mem e hx))
      refine ⟨hrest.1, ?_⟩
      intro t ht q htq
      simp only [run, List.mem_cons] at ht
      rcases ht with h1 | h2
      · exact hstep.2 q (h1 ▸ htq)
      · exact hrest.2 t h2 q htq

/-- Unfolding of the stored smoothed quaternion against the step written
from the specification's words. -/
theorem specQuatStep_eq (a b : Quat) :
    normalizeQuaternion (smoothQuaternion a b) = specQuatStep a b := rfl

end SmoothTM

namespace AlvaScale

theorem updateProcessingDimensions_scaleFactor (dW dH : ℤ) (s : State) :
    (updateProcessingDimensions dW dH s).scaleFactor = s.scaleFactor := rfl

/-- Every `updateFPS` call keeps the scale factor inside [1/2, 1]. -/
theorem updateFPS_scale_bounds (t : ℚ) (dW dH : ℤ) (s : State)
    (h1 : 1 / 2 ≤ s.scaleFactor) (h2 : s.scaleFactor ≤ 1) :
    1 / 2 ≤ (updateFPS t dW dH s).scaleFactor ∧
      (updateFPS t dW dH s).scaleFactor ≤ 1 := by
  unfold updateFPS
  by_cases hw : 1000 ≤ t - s.lastFPSUpdate
  · simp only [hw, if_true, if_pos]
    by_cases hlow : s.frameCount + 1 < 30
    · simp only [hlow, if_true, if_pos, updateProcessingDimensions_scaleFactor]
      refine ⟨le_max_left _ _, max_le (by norm_num) (by linarith)⟩
    · simp only [hlow, if_false, if_neg, not_false_iff]
      by_cases hhigh : 45 < s.frameCount + 1 ∧ s.scaleFactor < 1
      · simp only [hhigh, if_true, if_pos, updateProcessingDimensions_scaleFactor]
        refine ⟨le_min (by norm_num) (by linarith), min_le_left _ _⟩
      · simp only [hhigh, if_false, if_neg, not_false_iff]
        exact ⟨h1, h2⟩
  · simp only [hw, if_false, if_neg, not_false_iff]
    exact ⟨h1, h2⟩

/-- The scale bound is preserved along any sequence of FPS windows. -/
theorem runFPS_scale_bounds (events : List (ℚ × ℤ × ℤ)) (s : State)
    (h1 : 1 / 2 ≤ s.scaleFactor) (h2 : s.scaleFactor ≤ 1) :
    1 / 2 ≤ (runFPS s events).scaleFactor ∧
      (runFPS s events).scaleFactor ≤ 1 := by
  induction events generalizing s with
  | nil => exact ⟨h1, h2⟩
  | cons e es ih =>
      have hstep := updateFPS_scale_bounds e.1 e.2.1 e.2.2 s h1 h2
      exact ih _ hstep.1 hstep.2

/-- Resolution updates never touch the estimator's dimensions. -/
theorem updateProcessingDimensions_estimatorDims (dW dH : ℤ) (s : State) :
    estimatorDims (updateProcessingDimensions dW dH s) = estimatorDims s := rfl

/-- FPS updates never touch the estimator's dimensions, in particular on
windows that change the scale factor. -/
theorem updateFPS_estimatorDims (t : ℚ) (dW dH : ℤ) (s : State) :
    estimatorDims (updateFPS t dW dH s) = estimatorDims s := by
  unfold updateFPS
  by_cases hw : 1000 ≤ t - s.lastFPSUpdate
  · simp only [hw, if_true, if_pos]
    by_cases hlow : s.frameCount + 1 < 30
    · simp only [hlow, if_true, if_pos]
      rfl
    · simp only [hlow, if_false, if_neg, not_false_iff]
      by_cases hhigh : 45 < s.frameCount + 1 ∧ s.scaleFactor < 1
      · simp only [hhigh, if_true, if_pos]
        rfl
      · simp only [hhigh, if_false, if_neg, not_false_iff]
        rfl
  · simp only [hw, if_false, if_neg, not_false_iff]
    rfl

/-- Runs of FPS windows never touch the estimator's dimensions. -/
theorem runFPS_estimatorDims (events : List (ℚ × ℤ × ℤ)) (s : State) :
    estimatorDims (runFPS s events) = estimatorDims s := by
  induction events generalizing s with
  | nil => rfl
  | cons e es ih =>
      rw [runFPS, ih, updateFPS_estimatorDims]

/-- A burst of frames all timed inside the first second only counts
frames; no window closes. -/
theorem runFPS_replicate_zero (n : ℕ) (s : State)
    (h : s.lastFPSUpdate = 0) :
    runFPS s (List.replicate n ((0 : ℚ), (640 : ℤ), (480 : ℤ))) =
      { s with frameCount := s.frameCount + n } := by
  induction n generalizing s with
  | zero => simp [runFPS]
  | succ n ih =>
      rw [List.replicate_succ, runFPS]
      have hcond : ¬ ((1000 : ℚ) ≤ 0 - s.lastFPSUpdate) := by
        rw [h]
        norm_num
      have hstep : updateFPS 0 640 480 s =
          { s with frameCount := s.frameCount + 1 } := by
        simp only [updateFPS]
        rw [if_neg hcond]
      rw [hstep, ih { s with frameCount := s.frameCount + 1 } h]
      have harith : s.frameCount + 1 + n = s.frameCount + (n + 1) := by omega
      simp [harith]

/-- Runs concatenate. -/
theorem runFPS_append (l1 l2 : List (ℚ × ℤ × ℤ)) (s : State) :
    runFPS s (l1 ++ l2) = runFPS (runFPS s l1) l2 := by
  induction l1 generalizing s with
  | nil => rfl
  | cons e es ih =>
      rw [List.cons_append, runFPS, runFPS, ih]


end AlvaScale

namespace MergeTM
/-- A non-null current pose survives every subsequent report. -/
theorem run_currentPose_ne_none (events : List (Source × Option Fields))
    (s : State) (h : s.currentPose ≠ none) :
    (run s events).1.currentPose ≠ none := by
  induction events generalizing s with
  | nil => exact h
  | cons e es ih =>
      cases hp : e.2 with
      | none =>
          have hstep : handlePose e.1 s e.2 = (s, none) := by
            rw [hp]
            rfl
          simp only [run, hstep]
          exact ih s h
      | some p =>
          have hstep : (handlePose e.1 s e.2).1.currentPose ≠ none := by
            rw [hp]
            simp [handlePose]
          simp only [run]
          exact ih _ hstep

end MergeTM

open SmoothTM in
/-- C1: every valid pose emitted by the smoothing `TrackerManager` on a
stream of unit-quaternion source reports carries an orientation
quaternion whose Euclidean norm is within 1e-6 of 1; and after the first
pose the smoothing step flips the incoming quaternion's sign on negative
dot product, blends component-wise, and renormalizes by dividing all four
components by their combined magnitude. -/
theorem c1_emitted_quaternion_unit (events : List (Source × Option Pose))
    (hin : ∀ e ∈ events, ∀ p, e.2 = some p → quatNormSq p.quaternion = 1) :
    (∀ t ∈ (SmoothTM.run initState events).2, ∀ q, t = some q →
        |quatNorm q.quaternion - 1| ≤ 1 / 1000000)
    ∧ (∀ (s : State) (p : Pose), s.isFirstPose = false →
        (smoothPose s (some p)).1.smoothedQuaternion =
          specQuatStep p.quaternion s.smoothedQuaternion) := by
  constructor
  · intro t ht q htq
    have h := (run_quatInv events initState quatInv_initState hin).2 t ht q htq
    rw [quatNorm_eq_one _ h]
    norm_num
  · intro s p hf
    have hstep : (smoothPose s (some p)).1.smoothedQuaternion =
        normalizeQuaternion
          (smoothQuaternion p.quaternion s.smoothedQuaternion) := by
      simp [smoothPose, hf]
    rw [hstep, specQuatStep_eq]

open SmoothTM in
/-- Witness for C1 at a concrete one-report stream. -/
theorem c1_emitted_quaternion_unit_witness :
    (∀ t ∈ (SmoothTM.run initState
        [(Source.alva, some { position := ⟨0, 0, 0⟩, quaternion := ⟨0, 0, 0, 1⟩,
                              orientation := ⟨0, 0, 0⟩ })]).2,
      ∀ q, t = some q → |quatNorm q.quaternion - 1| ≤ 1 / 1000000)
    ∧ (∀ (s : State) (p : Pose), s.isFirstPose = false →
        (smoothPose s (some p)).1.smoothedQuaternion =
          specQuatStep p.quaternion s.smoothedQuaternion) :=
  c1_emitted_quaternion_unit _ (by
    intro e he p hp
    simp only [List.mem_singleton] at he
    subst he
    simp only [Option.some.injEq] at hp
    rw [← hp]
    norm_num [quatNormSq])

open SmoothTM in
/-- C2: with smoothed quaternion (0,0,0,1) and incoming quaternion
(0,0,0,-1), the negative dot product triggers a sign flip, so the
smoothed quaternion after the step equals (0,0,0,1) unchanged. -/
theorem c2_shorter_arc_flip :
    (smoothPose
      { smoothedPosition := ⟨0, 0, 0⟩, smoothedQuaternion := ⟨0, 0, 0, 1⟩,
        isFirstPose := false, currentPose := none }
      (some { position := ⟨0, 0, 0⟩, quaternion := ⟨0, 0, 0, -1⟩,
              orientation := ⟨0, 0, 0⟩ })).1.smoothedQuaternion =
      (⟨0, 0, 0, 1⟩ : Quat) := by
  have hd : quatDot (⟨0, 0, 0, -1⟩ : Quat) (⟨0, 0, 0, 1⟩ : Quat) < 0 := by
    norm_num [quatDot]
  have h1 : smoothQuaternion (⟨0, 0, 0, -1⟩ : Quat) (⟨0, 0, 0, 1⟩ : Quat) =
      (⟨0, 0, 0, 1⟩ : Quat) := by
    simp only [smoothQuaternion, if_pos hd]
    norm_num [smoothValue, smoothingFactor]
  have h2 : normalizeQuaternion (⟨0, 0, 0, 1⟩ : Quat) = (⟨0, 0, 0, 1⟩ : Quat) := by
    simp only [normalizeQuaternion, quatNorm, quatNormSq]
    norm_num
  show normalizeQuaternion
    (smoothQuaternion ⟨0, 0, 0, -1⟩ ⟨0, 0, 0, 1⟩) = (⟨0, 0, 0, 1⟩ : Quat)
  rw [h1, h2]

open SmoothTM in
/-- C9: a null report from any source is forwarded to the consumer
unchanged (null, no smoothing of absence) and resets the first-pose flag,
so the next valid report from any source is emitted directly rather than
smoothed against the stale state. -/
theorem c9_null_forwarded_and_reset :
    ∀ (src src' : Source) (s : State) (p : Pose),
      handlePose src s none = ({ s with isFirstPose := true }, none)
      ∧ (handlePose src' (handlePose src s none).1 (some p)).2 =
          some { position := p.position, quaternion := p.quaternion,
                 orientation := p.orientation, source := src' } := by
  intro src src' s p
  exact ⟨rfl, rfl⟩

open AlvaHold in
/-- C3 counterexample: from a held pose with loss counter 0 and cap 5,
five consecutive null estimator reports with no timeout event produce the
held pose on frames 1-4 and a null emission immediately on frame 5, so
the fifth emission does not wait for the timeout to fire. -/
theorem c3_fifth_null_emitted_immediately :
    (AlvaHold.run
      { lastPose := some zeroPose, consecutiveLostFrames := 0,
        timerStored := false, timerPending := false }
      [Event.frame none, Event.frame none, Event.frame none,
       Event.frame none, Event.frame none]).2 =
      [some (some zeroPose), some (some zeroPose), some (some zeroPose),
       some (some zeroPose), some none] := rfl

open AlvaHold in
/-- C3 amended: for any held pose and any timer flags, four consecutive
null reports re-emit the held pose and the fifth emits null immediately,
before any timeout fires. -/
theorem c3_hold_then_immediate_null :
    ∀ (P : RawPose) (ts tp : Bool),
      (AlvaHold.run
        { lastPose := some P, consecutiveLostFrames := 0,
          timerStored := ts, timerPending := tp }
        [Event.frame none, Event.frame none, Event.frame none,
         Event.frame none, Event.frame none]).2 =
        [some (some P), some (some P), some (some P),
         some (some P), some none] := by
  intro P ts tp
  cases ts <;> cases tp <;> rfl

open AlvaHold in
/-- C4 counterexample: with the zero pose held, an estimator pose whose
translation entry jumps by 10^6 is accepted and emitted rather than
rejected: no stability gate exists in the code. -/
theorem c4_far_pose_accepted :
    (AlvaHold.processFrame
      { lastPose := some zeroPose, consecutiveLostFrames := 0,
        timerStored := false, timerPending := false }
      (some farPose)).2 = some (some (convertPoseToThreeJS farPose))
    ∧ convertPoseToThreeJS farPose 12 - zeroPose 12 = 1000000 := by
  constructor
  · rfl
  · norm_num [convertPoseToThreeJS, farPose, zeroPose]
    decide

open AlvaHold in
/-- C4 amended: on every frame of every run where the estimator returns a
pose, that pose is converted, accepted and emitted unconditionally; no
frame with an estimator pose is ever treated as not-found. -/
theorem c4_every_estimator_pose_accepted :
    ∀ (events : List Event) (s : State) (i : ℕ) (p : RawPose),
      events[i]? = some (Event.frame (some p)) →
      (AlvaHold.run s events).2[i]? =
        some (some (some (convertPoseToThreeJS p))) := by
  intro events
  induction events with
  | nil =>
      intro s i p h
      simp at h
  | cons e es ih =>
      intro s i p h
      cases i with
      | zero =>
          simp only [List.getElem?_cons_zero, Option.some.injEq] at h
          subst h
          simp [AlvaHold.run, AlvaHold.step, AlvaHold.processFrame]
      | succ n =>
          simp only [List.getElem?_cons_succ] at h
          simpa [AlvaHold.run] using ih (step s e).1 n p h

open AlvaHold in
/-- Witness for C4's amended theorem on a one-frame run. -/
theorem c4_every_estimator_pose_accepted_witness :
    (AlvaHold.run
      { lastPose := some zeroPose, consecutiveLostFrames := 0,
        timerStored := false, timerPending := false }
      [Event.frame (some farPose)]).2[0]? =
      some (some (some (convertPoseToThreeJS farPose))) :=
  c4_every_estimator_pose_accepted [Event.frame (some farPose)] _ 0 farPose rfl

open AlvaHold in
/-- C7 counterexample: after a hold frame, a fresh accepted pose, and a
further loss frame with a held pose and loss counter below the cap, no
timeout is pending — the stale stored handle prevents re-arming the
timer after a hold-and-recover cycle. -/
theorem c7_timer_not_rearmed_after_recovery :
    ((AlvaHold.run
      { lastPose := some zeroPose, consecutiveLostFrames := 0,
        timerStored := false, timerPending := false }
      [Event.frame none, Event.frame (some farPose), Event.frame none]).1.timerPending
      = false)
    ∧ ((AlvaHold.run
      { lastPose := some zeroPose, consecutiveLostFrames := 0,
        timerStored := false, timerPending := false }
      [Event.frame none, Event.frame (some farPose), Event.frame none]).1.lastPose.isSome
      = true)
    ∧ ((AlvaHold.run
      { lastPose := some zeroPose, consecutiveLostFrames := 0,
        timerStored := false, timerPending := false }
      [Event.frame none, Event.frame (some farPose), Event.frame none]).1.consecutiveLostFrames
      = 1) :=
  ⟨rfl, rfl, rfl⟩

open AlvaHold in
/-- C7 amended: a fresh accepted pose cancels any pending timer and
resets the loss counter to zero; a held loss frame below the cap arms the
timeout only when no timer handle was ever stored, leaving the pending
flag unchanged otherwise. -/
theorem c7_timer_discipline (s : State)
    (hinv : s.timerPending = true → s.timerStored = true) :
    ((∀ p : RawPose,
        (processFrame s (some p)).1.consecutiveLostFrames = 0
        ∧ (processFrame s (some p)).1.timerPending = false)
    ∧ (∀ held : RawPose, s.lastPose = some held →
        s.consecutiveLostFrames + 1 < maxConsecutiveLostFrames →
        (processFrame s none).1.timerStored = true
        ∧ (processFrame s none).1.timerPending =
            (if s.timerStored then s.timerPending else true))) := by
  constructor
  · intro p
    refine ⟨rfl, ?_⟩
    simp only [processFrame]
    by_cases h : s.timerStored
    · simp [h]
    · have hp : s.timerPending = false := by
        cases hpv : s.timerPending
        · rfl
        · exact absurd (hinv hpv) h
      simp [h, hp]
  · intro held hheld hlt
    refine ⟨?_, ?_⟩
    · simp [processFrame, hheld, hlt]
    · simp [processFrame, hheld, hlt]

open AlvaScale in
/-- C5: a window measuring 15 FPS applies exactly one clamped decrement
step of 0.1, a window measuring 50 FPS with scale below 1 applies exactly
one clamped increment step of 0.1, the device-based initial scale lies in
[0.5, 1], and the scale stays in [0.5, 1] along every sequence of FPS
windows. -/
theorem c5_scale_steps_and_bounds :
    (∀ (s : AlvaScale.State) (t : ℚ) (dW dH : ℤ),
        1000 ≤ t - s.lastFPSUpdate → s.frameCount + 1 = 15 →
        (updateFPS t dW dH s).scaleFactor =
          max (1 / 2) (s.scaleFactor - 1 / 10))
    ∧ (∀ (s : AlvaScale.State) (t : ℚ) (dW dH : ℤ),
        1000 ≤ t - s.lastFPSUpdate → s.frameCount + 1 = 50 →
        s.scaleFactor < 1 →
        (updateFPS t dW dH s).scaleFactor =
          min 1 (s.scaleFactor + 1 / 10))
    ∧ (∀ d : Device, 1 / 2 ≤ determineOptimalScale d ∧
        determineOptimalScale d ≤ 1)
    ∧ (∀ (events : List (ℚ × ℤ × ℤ)) (d : Device),
        1 / 2 ≤ (runFPS (initTracker d) events).scaleFactor ∧
          (runFPS (initTracker d) events).scaleFactor ≤ 1) := by
  refine ⟨?_, ?_, ?_, ?_⟩
  · intro s t dW dH hw hfc
    simp [AlvaScale.updateFPS, hw, hfc,
      updateProcessingDimensions_scaleFactor]
  · intro s t dW dH hw hfc hlt
    simp [AlvaScale.updateFPS, hw, hfc, hlt,
      updateProcessingDimensions_scaleFactor]
  · intro d
    simp only [AlvaScale.determineOptimalScale]
    exact ⟨le_max_left _ _, max_le (by norm_num) (min_le_left _ _)⟩
  · intro events d
    have hd : 1 / 2 ≤ (initTracker d).scaleFactor ∧
        (initTracker d).scaleFactor ≤ 1 := by
      simp only [AlvaScale.initTracker, AlvaScale.determineOptimalScale]
      exact ⟨le_max_left _ _, max_le (by norm_num) (min_le_left _ _)⟩
    exact runFPS_scale_bounds events _ hd.1 hd.2

open AlvaScale in
/-- Witness for C5 at concrete states measuring 15 and 50 FPS. -/
theorem c5_scale_steps_and_bounds_witness :
    (updateFPS 1000 640 480
      { scaleFactor := 1, frameCount := 14, currentFPS := 60,
        lastFPSUpdate := 0, processedWidth := 640, processedHeight := 480,
        alvaWidth := 640, alvaHeight := 480, baseWidth := 640,
        baseHeight := 480 }).scaleFactor = max (1 / 2) (1 - 1 / 10)
    ∧ (updateFPS 1000 640 480
      { scaleFactor := 1 / 2, frameCount := 49, currentFPS := 60,
        lastFPSUpdate := 0, processedWidth := 320, processedHeight := 240,
        alvaWidth := 640, alvaHeight := 480, baseWidth := 640,
        baseHeight := 480 }).scaleFactor = min 1 (1 / 2 + 1 / 10) :=
  ⟨c5_scale_steps_and_bounds.1 _ 1000 640 480 (by norm_num) rfl,
   c5_scale_steps_and_bounds.2.1 _ 1000 640 480 (by norm_num) rfl
     (by norm_num)⟩

open AlvaScale in
/-- C6: resolution changes never reinitialize the estimator.  Dimension
and FPS updates leave the estimator's initialization dimensions
untouched, and in the concrete 15-FPS scenario the frame fed to the
estimator after the scale decrement measures 576x432 while the estimator
is still the one initialized at 640x480. -/
theorem c6_estimator_never_reinitialized :
    (∀ (dW dH : ℤ) (s : AlvaScale.State),
        estimatorDims (updateProcessingDimensions dW dH s) = estimatorDims s)
    ∧ (∀ (t : ℚ) (dW dH : ℤ) (s : AlvaScale.State),
        estimatorDims (updateFPS t dW dH s) = estimatorDims s)
    ∧ frameDims c6Scenario = (576, 432)
    ∧ estimatorDims c6Scenario = (640, 480)
    ∧ frameDims c6Scenario ≠ estimatorDims c6Scenario := by
  have hstart : updateProcessingDimensions 640 480 (initTracker ⟨false, 4, 1⟩) =
      { scaleFactor := 1, frameCount := 0, currentFPS := 60,
        lastFPSUpdate := 0, processedWidth := 640, processedHeight := 480,
        alvaWidth := 640, alvaHeight := 480, baseWidth := 640,
        baseHeight := 480 } := by
    unfold updateProcessingDimensions initTracker determineOptimalScale
    norm_num
  have hfloorW : Int.floor ((640 : ℚ) * (9 / 10)) = 576 := by
    norm_num [Int.floor_eq_iff]
  have hfloorH : Int.floor ((480 : ℚ) * (9 / 10)) = 432 := by
    norm_num [Int.floor_eq_iff]
  have hscen : c6Scenario =
      { scaleFactor := 9 / 10, frameCount := 0, currentFPS := 15,
        lastFPSUpdate := 1000, processedWidth := 576, processedHeight := 432,
        alvaWidth := 640, alvaHeight := 480, baseWidth := 640,
        baseHeight := 480 } := by
    rw [c6Scenario, runFPS_append, hstart, runFPS_replicate_zero 14 _ rfl]
    rw [runFPS, runFPS]
    simp only [updateFPS, updateProcessingDimensions]
    norm_num [hfloorW, hfloorH]
  refine ⟨updateProcessingDimensions_estimatorDims,
    updateFPS_estimatorDims, ?_, ?_, ?_⟩
  · rw [hscen]
    rfl
  · rw [hscen]
    rfl
  · rw [hscen]
    simp [frameDims, estimatorDims]

open GPS in
/-- C8: an update arriving less than 1000 ms after the last accepted one
is discarded without emission or state change; accepted update times are
spaced at least 1000 ms apart along every run, so at most one pose is
emitted per 1000 ms; and every feed error emits null. -/
theorem c8_throttle_and_error :
    (∀ (s : GPS.State) (t : ℤ) (p : Position),
        t - s.lastUpdateTime < updateInterval →
        handlePositionUpdate s t p = (s, none))
    ∧ (∀ (s : GPS.State) (events : List GPS.Event),
        List.Chain (fun a b => a + 1000 ≤ b) s.lastUpdateTime
          (acceptedTimes s events))
    ∧ (∀ s : GPS.State, handleError s = (s, some none)) := by
  refine ⟨?_, ?_, ?_⟩
  · intro s t p h
    simp [GPS.handlePositionUpdate, h]
  · intro s events
    induction events generalizing s with
    | nil => exact List.Chain.nil
    | cons e es ih =>
        cases e with
        | update t p =>
            by_cases h : t - s.lastUpdateTime < updateInterval
            · have hstep : step s (Event.update t p) = (s, none) := by
                simp [GPS.step, GPS.handlePositionUpdate, h]
              simp only [GPS.acceptedTimes, hstep, Option.isSome_none,
                Bool.false_eq_true, if_false]
              exact ih s
            · have hstep : step s (Event.update t p) =
                  ({ lastUpdateTime := t, lastPosition := some p },
                   some (some (toPose p))) := by
                simp [GPS.step, GPS.handlePositionUpdate, h]
              simp only [GPS.acceptedTimes, hstep, Option.isSome_some, if_true]
              refine List.Chain.cons ?_
                (ih { lastUpdateTime := t, lastPosition := some p })
              have : updateInterval ≤ t - s.lastUpdateTime := not_lt.mp h
              simp only [GPS.updateInterval] at this
              omega
        | error =>
            simp only [GPS.acceptedTimes, GPS.step, GPS.handleError]
            exact ih s
  · intro s
    rfl

open GPS in
/-- Witness for C8: a too-early update at t = 500 against last accepted
time 0 is discarded, the accepted times of a concrete run are chained,
and an error emits null. -/
theorem c8_throttle_and_error_witness :
    (handlePositionUpdate GPS.initState 500
        { coords := { longitude := 0, latitude := 0, altitude := none,
                      heading := none }, timestamp := 0 } =
      (GPS.initState, none))
    ∧ List.Chain (fun a b => a + 1000 ≤ b) GPS.initState.lastUpdateTime
        (acceptedTimes GPS.initState
          [Event.update 1000
            { coords := { longitude := 0, latitude := 0, altitude := none,
                          heading := none }, timestamp := 0 },
           Event.update 1500
            { coords := { longitude := 0, latitude := 0, altitude := none,
                          heading := none }, timestamp := 0 }])
    ∧ handleError GPS.initState = (GPS.initState, some none) :=
  ⟨c8_throttle_and_error.1 GPS.initState 500 _ (by norm_num [GPS.initState, GPS.updateInterval]),
   c8_throttle_and_error.2.1 GPS.initState _,
   c8_throttle_and_error.2.2 GPS.initState⟩

open MergeTM in
/-- C10: a null report leaves the state untouched and does not invoke the
consumer callback; a valid report merges into the current pose and tags
it with the reporting source; and `getCurrentPose` returns null exactly
when no non-null report has arrived yet, so a non-null current pose never
becomes null again. -/
theorem c10_current_pose_merge_and_persistence :
    (∀ (src : MergeTM.Source) (s : MergeTM.State),
        MergeTM.handlePose src s none = (s, none))
    ∧ (∀ (src : MergeTM.Source) (s : MergeTM.State) (p : Fields),
        MergeTM.handlePose src s (some p) =
          ({ currentPose := some
              { fields := mergeFields (fieldsOf s.currentPose) p,
                source := src } },
           some { fields := mergeFields (fieldsOf s.currentPose) p,
                  source := src }))
    ∧ (∀ events : List (MergeTM.Source × Option Fields),
        MergeTM.getCurrentPose (MergeTM.run MergeTM.initState events).1 = none ↔
          ∀ e ∈ events, e.2 = none) := by
  refine ⟨fun _ _ => rfl, fun _ _ _ => rfl, ?_⟩
  intro events
  induction events with
  | nil => simp [MergeTM.run, MergeTM.getCurrentPose, MergeTM.initState]
  | cons e es ih =>
      cases hp : e.2 with
      | none =>
          have hstep : MergeTM.handlePose e.1 MergeTM.initState e.2 =
              (MergeTM.initState, none) := by
            rw [hp]
            rfl
          simp only [MergeTM.run, hstep]
          rw [ih]
          constructor
          · intro h x hx
            rcases List.mem_cons.mp hx with h1 | h2
            · rw [h1]
              exact hp
            · exact h x h2
          · intro h x hx
            exact h x (List.mem_cons_of_mem e hx)
      | some p =>
          have hne : (MergeTM.handlePose e.1 MergeTM.initState e.2).1.currentPose
              ≠ none := by
            rw [hp]
            simp [MergeTM.handlePose]
          have hfin := run_currentPose_ne_none es _ hne
          simp only [MergeTM.run, MergeTM.getCurrentPose]
          constructor
          · intro h
            exact absurd h hfin
          · intro h
            have := h e (List.mem_cons_self e es)
            rw [hp] at this
            exact absurd this (by simp)

open AlvaHold in
/-- Witness for C7's amended theorem at a concrete holder state. -/
theorem c7_timer_discipline_witness :
    ((∀ p : RawPose,
        (processFrame
          { lastPose := some zeroPose, consecutiveLostFrames := 0,
            timerStored := true, timerPending := true } (some p)).1.consecutiveLostFrames = 0
        ∧ (processFrame
          { lastPose := some zeroPose, consecutiveLostFrames := 0,
            timerStored := true, timerPending := true } (some p)).1.timerPending = false)
    ∧ (∀ held : RawPose,
        (({ lastPose := some zeroPose, consecutiveLostFrames := 0,
            timerStored := true, timerPending := true } : State).lastPose = some held) →
        ({ lastPose := some zeroPose, consecutiveLostFrames := 0,
            timerStored := true, timerPending := true } : State).consecutiveLostFrames + 1
            < maxConsecutiveLostFrames →
        (processFrame
          { lastPose := some zeroPose, consecutiveLostFrames := 0,
            timerStored := true, timerPending := true } none).1.timerStored = true
        ∧ (processFrame
          { lastPose := some zeroPose, consecutiveLostFrames := 0,
            timerStored := true, timerPending := true } none).1.timerPending =
            (if ({ lastPose := some zeroPose, consecutiveLostFrames := 0,
                   timerStored := true, timerPending := true } : State).timerStored
             then ({ lastPose := some zeroPose, consecutiveLostFrames := 0,
                     timerStored := true, timerPending := true } : State).timerPending
             else true))) :=
  c7_timer_discipline _ (fun _ => rfl)


